import Mathlib

/-!
Shallow embedding of `src/code/update_vendor_performance.py` (vendor_grid).

The script builds, per metric, a "month spread": a facility universe pulled
from a reference table, a per-month aggregation, successive left joins of the
monthly results onto the universe with `fillna(0)` after every join, and a
final sort by the facility column.  Dates inside rows are modelled as day
ordinals (`Nat`); calendar dates (needed for the `pd.date_range(..., freq="M")`
loop) are modelled by a `Date` structure with explicit leap-year month lengths.
Pandas behaviour relevant here:
  * `pd.date_range(s, e, freq="M")` yields exactly the calendar month-end
    dates `d` with `s ≤ d ≤ e`, in ascending order;
  * `DataFrame.groupby(k)` silently drops rows whose key is null and sorts
    group keys; the counts per key are what `groupCount` computes;
  * `left.merge(right, on=k, how="left")` keeps exactly the rows of `left`
    (the monthly aggregation has one row per key, so no fan-out), and
    `.fillna(0)` then replaces every missing cell by 0;
  * overlapping non-key column names in a merge get `_x`/`_y` suffixes;
  * the `.dt` accessor on the day-difference column raises `AttributeError`
    exactly when the column holds no timedelta value (empty join result or
    every difference null), which the source catches to return the
    `{facility: "None", infections: "None"}` sentinel.
-/

/-! ## Calendar dates and the Range Builder (`build_csv_date_spread` loop) -/

structure Date where
  year : Nat
  month : Nat
  day : Nat
deriving DecidableEq

/-- Gregorian leap-year rule, as `pandas`' calendar uses it. -/
def isLeap (y : Nat) : Bool := y % 4 == 0 && (y % 100 != 0 || y % 400 == 0)

/-- Number of days in month `m` of year `y`. -/
def daysInMonth (y m : Nat) : Nat :=
  if m == 2 then (if isLeap y then 29 else 28)
  else if m == 4 || m == 6 || m == 9 || m == 11 then 30
  else 31

/-- A well-formed calendar date: month in 1..12, day in 1..length of month. -/
def Date.valid (d : Date) : Bool :=
  decide (1 ≤ d.month) && decide (d.month ≤ 12) &&
    decide (1 ≤ d.day) && decide (d.day ≤ daysInMonth d.year d.month)

/-- Calendar order on dates (lexicographic year, month, day). -/
def dateLE (a b : Date) : Bool :=
  decide (a.year < b.year) ||
    (decide (a.year = b.year) &&
      (decide (a.month < b.month) ||
        (decide (a.month = b.month) && decide (a.day ≤ b.day))))

/-- Linear month index `year * 12 + month`; consecutive calendar months get
consecutive indices. -/
def monthIdx (d : Date) : Nat := d.year * 12 + d.month

/-- The month-end date of the calendar month with linear index `i`
(for `i = y * 12 + m` with `1 ≤ m ≤ 12` this is the last day of month `m`
of year `y`). -/
def monthEndOfIdx (i : Nat) : Date :=
  ⟨(i - 1) / 12, (i - 1) % 12 + 1, daysInMonth ((i - 1) / 12) ((i - 1) % 12 + 1)⟩

/-- `pd.date_range(s, e, freq="M")`: all calendar month-end dates `d` with
`s ≤ d ≤ e`, ascending.  Generated by walking the month indices from `s`'s
month to `e`'s month and keeping the month-ends that fall inside `[s, e]`
(month-ends of earlier months are `< s`, of later months `> e`). -/
def date_range_M (s e : Date) : List Date :=
  ((List.range (monthIdx e + 1 - monthIdx s)).map
      (fun j => monthEndOfIdx (monthIdx s + j))).filter
    (fun d => dateLE s d && dateLE d e)

/-- The `(start_date, date)` parameter pairs produced by the month loop of
`build_csv_date_spread`: for each generated month-end `date`, the pair
`(first day of date's month, date)` (the source's
`pd.to_datetime(f"{date.year}-{date.month}-01").date()`). -/
def monthPairs (s e : Date) : List (Date × Date) :=
  (date_range_M s e).map (fun d => (⟨d.year, d.month, 1⟩, d))

/-- Number of calendar-month steps from `s`'s month to `e`'s month. -/
def monthsBetween (s e : Date) : Nat := monthIdx e - monthIdx s

/-- Whether `d` is the last day of its calendar month. -/
def isMonthEnd (d : Date) : Bool := d.day == daysInMonth d.year d.month

/-! ## Generic grouping/counting (`groupby(key).count()["member_id"]`) -/

/-- Lexicographic order on character lists by code point; this is the string
order pandas uses when sorting group keys and the final frame (kept
kernel-computable, unlike `String.le`). -/
def charsLE : List Char → List Char → Bool
  | [], _ => true
  | _ :: _, [] => false
  | a :: as, b :: bs =>
    decide (a.toNat < b.toNat) || (decide (a.toNat = b.toNat) && charsLE as bs)

/-- String order used for sorted group keys and sorted output rows. -/
def strLEb (a b : String) : Bool := charsLE a.data b.data

/-- `sort_values` comparison on keyed rows: by the facility (key) column. -/
def rowLE {β : Type} (p q : String × β) : Prop := strLEb p.1 q.1 = true

instance {β : Type} : DecidableRel (@rowLE β) := fun p q =>
  inferInstanceAs (Decidable (strLEb p.1 q.1 = true))

/-- Key order as a relation for sorting plain key lists. -/
def keyLE (a b : String) : Prop := strLEb a b = true

instance : DecidableRel keyLE := fun a b =>
  inferInstanceAs (Decidable (strLEb a b = true))

/-- `rows.groupby(key).count()["member_id"]` for a non-null key column:
one entry per distinct key value, holding the number of rows carrying that
key (`member_id` is never null, so `count()` is the group size); group keys
come out sorted. -/
def groupCount {α : Type} (key : α → String) (rows : List α) : List (String × Nat) :=
  (((rows.map key).dedup).insertionSort keyLE).map
    (fun k => (k, (rows.filter (fun r => key r == k)).length))

/-- `rows.groupby(key).count()["member_id"]` for a nullable key column:
pandas silently drops rows whose group key is null, so the group labels are
exactly the non-null key values (each tagged `some` to reflect that the
label column of the result is still a nullable object column). -/
def groupbyCountNullable {α : Type} (key : α → Option String) (rows : List α) :
    List (Option String × Nat) :=
  (((rows.filterMap key).dedup).insertionSort keyLE).map
    (fun k => (some k, (rows.filter (fun r => key r == some k)).length))

/-- Value looked up for key `f` in a monthly aggregation result: `none` when
the facility has no row (a left join would leave the cell null). -/
def lookupCount (agg : List (String × Nat)) (f : String) : Option Nat :=
  (agg.find? (fun p => p.1 == f)).map (fun p => p.2)

/-- The count the assembled spread shows for key `f`: the aggregation's
count, or 0 after the zero-fill when `f` is absent. -/
def resultCount (agg : List (String × Nat)) (f : String) : Nat :=
  (lookupCount agg f).getD 0

/-- Whether the aggregation result has a row for key `f`. -/
def hasKey (agg : List (String × Nat)) (f : String) : Bool :=
  agg.any (fun p => p.1 == f)

/-! ## Census aggregators (`alf_census_on_date`, `nf_census_on_date`) -/

/-- A row of the `alfs` table (columns used by the queries). -/
structure AlfRow where
  member_id : String
  facility_name : String
  admission_date : Nat
  discharge_date : Option Nat
deriving DecidableEq

/-- A row of the `inpatient` table (columns used by the queries). -/
structure InpRow where
  member_id : String
  facility : String
  admission_date : Nat
  discharge_date : Option Nat
deriving DecidableEq

/-- The census `WHERE` clause with parameters bound positionally as the
source binds them: `params = (month_start, month_end)`, the first `?` is
`discharge_date >= ?` (so compared against the period START) and the second
is `admission_date <= ?` (compared against the period END). -/
def activeDuringPeriod (pstart pend : Nat) (admission : Nat) (discharge : Option Nat) : Bool :=
  (match discharge with
    | none => true
    | some d => decide (pstart ≤ d)) && decide (admission ≤ pend)

/-- The "active during period" condition as the spec words it:
`(discharge_date >= period_end OR discharge_date IS NULL) AND
admission_date <= period_start` — stated for comparison with the
source-derived `activeDuringPeriod`. -/
def specActiveDuringPeriod (pstart pend : Nat) (admission : Nat) (discharge : Option Nat) : Bool :=
  (match discharge with
    | none => true
    | some d => decide (pend ≤ d)) && decide (admission ≤ pstart)

/-- `alf_census_on_date`: filter `alfs` by the census clause, group by
`facility_name`, count members.  (The month-embedding column name is
modelled separately by `alf_census_col`.) -/
def alf_census_on_date (pstart pend : Nat) (alfs : List AlfRow) : List (String × Nat) :=
  groupCount (fun r => r.facility_name)
    (alfs.filter (fun r => activeDuringPeriod pstart pend r.admission_date r.discharge_date))

/-- `nf_census_on_date`: same clause against the `inpatient` table, grouped
by `facility`. -/
def nf_census_on_date (pstart pend : Nat) (inpatient : List InpRow) : List (String × Nat) :=
  groupCount (fun r => r.facility)
    (inpatient.filter (fun r => activeDuringPeriod pstart pend r.admission_date r.discharge_date))

/-! ## Spread Assembler (the merge/fillna fold of `build_csv_date_spread`) -/

/-- One left-join step: each universe row gains one cell, the looked-up
monthly count (null when the facility is absent from that month's result;
the monthly result has one row per key, so the join does not fan out). -/
def mergeRow (agg : List (String × Nat)) (p : String × List (Option Nat)) :
    String × List (Option Nat) :=
  (p.1, p.2 ++ [lookupCount agg p.1])

/-- `.fillna(0)` over a whole row: every null cell becomes 0. -/
def fillnaRow (p : String × List (Option Nat)) : String × List (Option Nat) :=
  (p.1, p.2.map (fun c => some (c.getD 0)))

/-- `df = df.merge(func(params), on=facility_col, how="left").fillna(0)`. -/
def merge_fillna (rows : List (String × List (Option Nat))) (agg : List (String × Nat)) :
    List (String × List (Option Nat)) :=
  (rows.map (mergeRow agg)).map fillnaRow

/-- `build_csv_date_spread`, with the database abstracted: given the
facility universe (the `SELECT DISTINCT(facility_col)` result) and the
already-computed monthly aggregation results, fold the merge/fillna step
over the months and sort rows by the facility column. -/
def build_csv_date_spread (facilities : List String) (aggs : List (List (String × Nat))) :
    List (String × List (Option Nat)) :=
  (aggs.foldl merge_fillna (facilities.map (fun f => (f, [])))).insertionSort rowLE

/-! ## Proximity Matcher (`infections_by_hosp`) -/

/-- A row of the `infections` table (columns the function reads). -/
structure InfRow where
  member_id : String
  date_time_occurred : Nat
  where_infection_was_acquired : String
deriving DecidableEq

/-- A row of the infections-to-inpatient `LEFT JOIN` result.  `admission_date`,
`discharge_date` and `facility` are null on left rows with no inpatient
match. -/
structure JRow where
  member_id : String
  date_time_occurred : Nat
  admission_date : Option Nat
  discharge_date : Option Nat
  facility : Option String
deriving DecidableEq

/-- The selection `WHERE where_infection_was_acquired = 'Hospital' AND
date_time_occurred BETWEEN ? AND ?`. -/
def hospAcquiredInPeriod (pstart pend : Nat) (i : InfRow) : Bool :=
  i.where_infection_was_acquired == "Hospital" &&
    decide (pstart ≤ i.date_time_occurred) && decide (i.date_time_occurred ≤ pend)

/-- `infections LEFT JOIN inpatient ut ON infections.member_id = ut.member_id`:
every selected infection paired with each inpatient row of the same member,
or with all-null right columns when the member has none. -/
def leftJoinInfAdm (infs : List InfRow) (inpatient : List InpRow) : List JRow :=
  infs.flatMap (fun i =>
    let ms := inpatient.filter (fun a => a.member_id == i.member_id)
    if ms.isEmpty then [⟨i.member_id, i.date_time_occurred, none, none, none⟩]
    else ms.map (fun a =>
      ⟨i.member_id, i.date_time_occurred, some a.admission_date, a.discharge_date,
        some a.facility⟩))

/-- `abs(date_time_occurred - discharge_date)` in days; null when the join
left `discharge_date` null. -/
def days_between_hosp_and_inf (r : JRow) : Option Nat :=
  match r.discharge_date with
  | some d => some (max r.date_time_occurred d - min r.date_time_occurred d)
  | none => none

/-- The day difference as a plain number for sorting (`sort_values` keeps
only rows that passed the 7-day filter, where it is always defined). -/
def diffVal (r : JRow) : Nat := (days_between_hosp_and_inf r).getD 0

/-- The filter `df["days_between_hosp_and_inf"].dt.days <= 7`; a null
difference compares as false (NaN <= 7 is False in pandas). -/
def withinOneWeek (r : JRow) : Bool :=
  match days_between_hosp_and_inf r with
  | some n => decide (n ≤ 7)
  | none => false

/-- `hosp_within_one_weeks`: joined rows within the 7-day window. -/
def hosp_within_one_weeks (joined : List JRow) : List JRow :=
  joined.filter withinOneWeek

/-- The `drop_duplicates(["member_id", "date_time_occurred"])` key. -/
def dupKey (r : JRow) : String × Nat := (r.member_id, r.date_time_occurred)

/-- Sorting order for `sort_values("days_between_hosp_and_inf")`. -/
def diffLE (a b : JRow) : Prop := diffVal a ≤ diffVal b

instance : DecidableRel diffLE := fun a b =>
  inferInstanceAs (Decidable (diffVal a ≤ diffVal b))

instance : IsTotal JRow diffLE := ⟨fun a b => Nat.le_total (diffVal a) (diffVal b)⟩

instance : IsTrans JRow diffLE := ⟨fun _ _ _ h1 h2 => Nat.le_trans h1 h2⟩

/-- `drop_duplicates([...], keep="first")`: keep each row whose key has not
been seen yet, walking the (sorted) list front to back. -/
def drop_duplicates_first : List JRow → List (String × Nat) → List JRow
  | [], _ => []
  | r :: rs, seen =>
    if dupKey r ∈ seen then drop_duplicates_first rs seen
    else r :: drop_duplicates_first rs (dupKey r :: seen)

/-- Rows surviving sort-by-difference then per-(member, infection date)
duplicate drop: the admission retained for each infection. -/
def keptAdmissions (joined : List JRow) : List JRow :=
  drop_duplicates_first ((hosp_within_one_weeks joined).insertionSort diffLE) []

/-- `infections_by_hosp`, database abstracted: takes the `infections` and
`inpatient` tables, returns the frame written to the spread (facility and
count rendered as the CSV strings, so the no-data sentinel and the normal
result share a type) together with the rows written to
`output/hospital_inf_without_visit.csv` (`none` when the sentinel path
returns before writing the file).  The source detects the degenerate case
by catching the `AttributeError` that the `.dt` accessor raises exactly
when the day-difference column holds no timedelta value (empty join or
every difference null); the `if` below is that condition stated
structurally. -/
def infections_by_hosp (pstart pend : Nat) (infections : List InfRow)
    (inpatient : List InpRow) : List (String × String) × Option (List InfRow) :=
  let infs := infections.filter (hospAcquiredInPeriod pstart pend)
  let joined := leftJoinInfAdm infs inpatient
  if joined.all (fun r => (days_between_hosp_and_inf r).isNone) then
    ([("None", "None")], none)
  else
    let kept := keptAdmissions joined
    let diag := infs.filter (fun i => !(kept.any (fun r => r.member_id == i.member_id)))
    ((groupbyCountNullable (fun r => r.facility) kept).map
        (fun p => (p.1.getD "", toString p.2)),
      some diag)

/-! ## Aggregator column names -/

/-- `alf_census_on_date` / `nf_census_on_date` count-column name:
`f"census-{params[0][:7]}"` with `params[0]` the month-start date string. -/
def alf_census_col (params : String × String) : String :=
  "census-" ++ params.1.take 7

/-- `alf_to_hosp` / `nf_to_hosp` count-column name:
`f"hosp_admits-{month_params[0]}"` (full date). -/
def alf_to_hosp_col (month_params : String × String) : String :=
  "hosp_admits-" ++ month_params.1

/-- `pressure_ulcers_at_facility` count-column name.  The source first
rebinds `params = [facility_type] + list(params)` and then renames with
`f"{facility_type}_pulcers-{params[0][:7]}"` — so `params[0]` is the
facility type, not the month-start date. -/
def pressure_ulcers_col (facility_type : String) (p : String × String) : String :=
  let params := facility_type :: [p.1, p.2]
  facility_type ++ "_pulcers-" ++ (params.headD "").take 7

/-- Column names produced by one pandas merge, key column excluded:
overlapping names get the `_x` (left) / `_y` (right) suffixes, the rest
keep their names. -/
def mergeCols (left right : List String) : List String :=
  left.map (fun c => if c ∈ right then c ++ "_x" else c) ++
    right.map (fun c => if c ∈ left then c ++ "_y" else c)

/-- Non-key column names of the assembled `hosp_infections.csv` spread
after `k` monthly merges: each month's `infections_by_hosp` result carries
the single value column `infections` (the sentinel frame included). -/
def infections_spread_cols : Nat → List String
  | 0 => []
  | k + 1 => mergeCols (infections_spread_cols k) ["infections"]

/-- Helper shape: the suffixed column pairs accumulated by an even number
of infections merges. -/
def colPattern : Nat → List String
  | 0 => []
  | m + 1 => colPattern m ++ ["infections_x", "infections_y"]

/-! ## Pressure-ulcer pipeline (`build_pressure_wound_csv`) -/

/-- A row of the `wounds` table (columns the queries read);
`living_detail` is nullable. -/
structure WoundRow where
  member_id : String
  living_situation : String
  living_detail : Option String
  date_time_occurred : Nat
deriving DecidableEq

/-- The wound selection `WHERE living_situation IS ? AND date_time_occurred
BETWEEN ? AND ?`. -/
def woundInPeriod (facility_type : String) (pstart pend : Nat) (r : WoundRow) : Bool :=
  r.living_situation == facility_type &&
    decide (pstart ≤ r.date_time_occurred) && decide (r.date_time_occurred ≤ pend)

/-- `pressure_ulcers_at_facility`, database abstracted: select the month's
wounds, group by the nullable `living_detail` (pandas drops the null-key
rows), then run the source's
`df["living_detail"] = df["living_detail"].fillna("Unknown")` over the
group labels of the result. -/
def pressure_ulcers_at_facility (facility_type : String) (pstart pend : Nat)
    (wounds : List WoundRow) : List (String × Nat) :=
  (groupbyCountNullable (fun r => r.living_detail)
      (wounds.filter (woundInPeriod facility_type pstart pend))).map
    (fun p => (p.1.getD "Unknown", p.2))

/-- The facility universe of `build_pressure_wound_csv`:
`SELECT DISTINCT(living_detail) FROM wounds WHERE living_situation IS ?`
followed by `df["living_detail"].fillna("Unknown", inplace=True)`. -/
def wound_universe (facility_type : String) (wounds : List WoundRow) : List String :=
  (((wounds.filter (fun r => r.living_situation == facility_type)).map
      (fun r => r.living_detail)).dedup).map (fun k => k.getD "Unknown")

/-- `build_pressure_wound_csv`, database abstracted: the same merge/fillna
fold as `build_csv_date_spread`, seeded with the wound universe, over the
monthly `pressure_ulcers_at_facility` results for the given
`(month_start, month_end)` day-ordinal pairs. -/
def build_pressure_wound_csv (facility_type : String) (months : List (Nat × Nat))
    (wounds : List WoundRow) : List (String × List (Option Nat)) :=
  ((months.map (fun m => pressure_ulcers_at_facility facility_type m.1 m.2 wounds)).foldl
      merge_fillna ((wound_universe facility_type wounds).map (fun f => (f, [])))).insertionSort
    rowLE

/-! ## Concrete inputs used by counterexamples and witnesses -/

/-- An `alfs` row admitted mid-month with no discharge: counted by the
source's clause for the month (10, 40), excluded by the spec's wording. -/
def cexAlfRow : AlfRow := ⟨"m1", "F", 20, none⟩

/-- Joined row: infection on day 100, discharge day 97 (difference 3). -/
def exJ1 : JRow := ⟨"A", 100, some 90, some 97, some "H1"⟩

/-- Joined row: same infection, discharge day 90 (difference 10). -/
def exJ2 : JRow := ⟨"A", 100, some 85, some 90, some "H2"⟩

/-- The two candidate admissions for one infection (claim C4's scenario). -/
def exJoined : List JRow := [exJ1, exJ2]

/-- Infections table for the diagnostic-file counterexample: member `A`
has a matched infection (day 100) and an unmatched one (day 200). -/
def cexInfections : List InfRow := [⟨"A", 100, "Hospital"⟩, ⟨"A", 200, "Hospital"⟩]

/-- Inpatient table for the diagnostic-file counterexample: member `A`'s
only stay is discharged on day 99. -/
def cexInpatient : List InpRow := [⟨"A", "H1", 90, some 99⟩]

/-- Infections table for the degenerate-join witness. -/
def exNoAdmInfections : List InfRow := [⟨"B", 50, "Hospital"⟩]

/-- Wound table for the null-detail counterexample: one hospital-acquired
pressure wound with `living_detail` null, occurring on day 15. -/
def cexWounds : List WoundRow := [⟨"m1", "SNF", none, 15⟩]

/-! ## Lemmas about the Range Builder -/

/-- Decoding a linear month index with a month in 1..12 recovers the
calendar month-end. -/
theorem monthEndOfIdx_decode (y m : Nat) (h1 : 1 ≤ m) (h2 : m ≤ 12) :
    monthEndOfIdx (y * 12 + m) = ⟨y, m, daysInMonth y m⟩ := by
  have hy : (y * 12 + m - 1) / 12 = y := by omega
  have hm : (y * 12 + m - 1) % 12 + 1 = m := by omega
  simp [monthEndOfIdx, hy, hm]

/-- The month index of the generated month-end is the index it was
generated from. -/
theorem monthIdx_monthEndOfIdx (i : Nat) (h : 1 ≤ i) :
    monthIdx (monthEndOfIdx i) = i := by
  simp only [monthIdx, monthEndOfIdx]
  omega

/-- Generated month-ends always carry a month in 1..12. -/
theorem month_bounds_monthEndOfIdx (i : Nat) :
    1 ≤ (monthEndOfIdx i).month ∧ (monthEndOfIdx i).month ≤ 12 := by
  simp only [monthEndOfIdx]
  omega

/-- A strictly smaller month index gives a calendar-smaller date, whatever
the days are. -/
theorem dateLE_of_monthIdx_lt (a b : Date) (hma1 : 1 ≤ a.month) (hma2 : a.month ≤ 12)
    (hmb1 : 1 ≤ b.month) (hmb2 : b.month ≤ 12) (h : monthIdx a < monthIdx b) :
    dateLE a b = true := by
  simp only [dateLE, Bool.or_eq_true, Bool.and_eq_true, decide_eq_true_eq]
  simp only [monthIdx] at h
  omega

/-- Every month-end generated at or after a valid start date is `≥` that
start date. -/
theorem dateLE_start_monthEnd (s : Date) (hv : s.valid = true) (j : Nat) :
    dateLE s (monthEndOfIdx (monthIdx s + j)) = true := by
  have hb : 1 ≤ s.month ∧ s.month ≤ 12 ∧ 1 ≤ s.day ∧ s.day ≤ daysInMonth s.year s.month := by
    simpa [Date.valid, Bool.and_eq_true, decide_eq_true_eq, and_assoc] using hv
  rcases j with _ | j
  · have hdec : monthEndOfIdx (monthIdx s + 0) = ⟨s.year, s.month, daysInMonth s.year s.month⟩ := by
      simpa [monthIdx] using monthEndOfIdx_decode s.year s.month hb.1 hb.2.1
    rw [hdec]
    simp only [dateLE, Bool.or_eq_true, Bool.and_eq_true, decide_eq_true_eq, true_and]
    omega
  · have hge : 1 ≤ monthIdx s + (j + 1) := by simp [monthIdx]; omega
    apply dateLE_of_monthIdx_lt s _ hb.1 hb.2.1
      (month_bounds_monthEndOfIdx _).1 (month_bounds_monthEndOfIdx _).2
    rw [monthIdx_monthEndOfIdx _ hge]
    omega

/-- C1 (amended): for valid dates `start ≤ end`, the month loop of
`build_csv_date_spread` yields one `(month_start, month_end)` pair per
calendar month-end inside `[start, end]`: that is
`months_between(start, end) + 1` pairs when `end` is the last day of its
month and `months_between(start, end)` pairs otherwise; every emitted
`month_start` is the first day of its pair's calendar month. -/
theorem range_builder_pair_count (s e : Date) (hs : s.valid = true) (he : e.valid = true)
    (hse : dateLE s e = true) :
    (monthPairs s e).length = monthsBetween s e + (if isMonthEnd e then 1 else 0)
      ∧ ∀ p ∈ monthPairs s e, p.1 = ⟨p.2.year, p.2.month, 1⟩ := by
  have hsb : 1 ≤ s.month ∧ s.month ≤ 12 ∧ 1 ≤ s.day ∧ s.day ≤ daysInMonth s.year s.month := by
    simpa [Date.valid, Bool.and_eq_true, decide_eq_true_eq, and_assoc] using hs
  have heb : 1 ≤ e.month ∧ e.month ≤ 12 ∧ 1 ≤ e.day ∧ e.day ≤ daysInMonth e.year e.month := by
    simpa [Date.valid, Bool.and_eq_true, decide_eq_true_eq, and_assoc] using he
  refine ⟨?_, ?_⟩
  · have hse' := hse
    simp only [dateLE, Bool.or_eq_true, Bool.and_eq_true, decide_eq_true_eq] at hse'
    have hidx : monthIdx s ≤ monthIdx e := by
      simp only [monthIdx]
      omega
    have hN : monthIdx e + 1 - monthIdx s = monthsBetween s e + 1 := by
      simp only [monthsBetween]
      omega
    simp only [monthPairs, List.length_map, date_range_M, hN, List.range_succ,
      List.map_append, List.filter_append, List.length_append]
    have hall : ((List.range (monthsBetween s e)).map
          (fun j => monthEndOfIdx (monthIdx s + j))).filter
          (fun d => dateLE s d && dateLE d e)
        = (List.range (monthsBetween s e)).map (fun j => monthEndOfIdx (monthIdx s + j)) := by
      apply List.filter_eq_self.mpr
      intro d hd
      simp only [List.mem_map, List.mem_range] at hd
      obtain ⟨j, hj, rfl⟩ := hd
      rw [Bool.and_eq_true]
      refine ⟨dateLE_start_monthEnd s hs j, ?_⟩
      apply dateLE_of_monthIdx_lt _ _ (month_bounds_monthEndOfIdx _).1
        (month_bounds_monthEndOfIdx _).2 heb.1 heb.2.1
      rw [monthIdx_monthEndOfIdx]
      · simp only [monthsBetween] at hj
        omega
      · simp only [monthIdx]
        omega
    rw [hall, List.length_map, List.length_range]
    have hdecE : monthEndOfIdx (monthIdx s + monthsBetween s e)
        = ⟨e.year, e.month, daysInMonth e.year e.month⟩ := by
      have hsum : monthIdx s + monthsBetween s e = e.year * 12 + e.month := by
        simp only [monthsBetween, monthIdx] at *
        omega
      rw [hsum, monthEndOfIdx_decode e.year e.month heb.1 heb.2.1]
    have hsle : dateLE s ⟨e.year, e.month, daysInMonth e.year e.month⟩ = true := by
      have h := dateLE_start_monthEnd s hs (monthsBetween s e)
      rwa [hdecE] at h
    have hd := heb.2.2.2
    have hiff : (dateLE ⟨e.year, e.month, daysInMonth e.year e.month⟩ e = true)
        ↔ (isMonthEnd e = true) := by
      simp only [dateLE, isMonthEnd, Bool.or_eq_true, Bool.and_eq_true,
        decide_eq_true_eq, true_and, beq_iff_eq]
      omega
    simp only [List.map_cons, List.map_nil, hdecE, List.filter_cons, List.filter_nil,
      hsle, Bool.true_and]
    rcases hme : isMonthEnd e with _ | _
    · have hfalse : dateLE ⟨e.year, e.month, daysInMonth e.year e.month⟩ e = false := by
        rcases hcase : dateLE ⟨e.year, e.month, daysInMonth e.year e.month⟩ e with _ | _
        · rfl
        · rw [hiff.mp hcase] at hme
          exact absurd hme (by simp)
      simp [hfalse]
    · have htrue := hiff.mpr hme
      simp [htrue]
  · intro p hp
    simp only [monthPairs, List.mem_map] at hp
    obtain ⟨d, _, rfl⟩ := hp
    rfl

/-- C1, as the claim states it, is refuted by a same-month range whose end
is not the last day of the month: the loop yields zero pairs where the
claim promises exactly one (`months_between + 1 = 1`). -/
theorem range_builder_claim_cex :
    (⟨2024, 1, 5⟩ : Date).valid = true ∧ (⟨2024, 1, 20⟩ : Date).valid = true
      ∧ dateLE ⟨2024, 1, 5⟩ ⟨2024, 1, 20⟩ = true
      ∧ monthsBetween ⟨2024, 1, 5⟩ ⟨2024, 1, 20⟩ + 1 = 1
      ∧ monthPairs ⟨2024, 1, 5⟩ ⟨2024, 1, 20⟩ = [] := by
  decide

/-- Witness for `range_builder_pair_count` at the 2024 first quarter. -/
theorem range_builder_pair_count_witness :
    (monthPairs ⟨2024, 1, 1⟩ ⟨2024, 3, 31⟩).length
        = monthsBetween ⟨2024, 1, 1⟩ ⟨2024, 3, 31⟩
          + (if isMonthEnd ⟨2024, 3, 31⟩ then 1 else 0)
      ∧ ∀ p ∈ monthPairs ⟨2024, 1, 1⟩ ⟨2024, 3, 31⟩, p.1 = ⟨p.2.year, p.2.month, 1⟩ :=
  range_builder_pair_count ⟨2024, 1, 1⟩ ⟨2024, 3, 31⟩ (by decide) (by decide) (by decide)

/-! ## Lemmas about grouped counting -/

/-- Finding a key among key-tagged entries is finding the key. -/
theorem find?_map_keys (c : String → Nat) (f : String) :
    ∀ ks : List String,
      (ks.map (fun k => (k, c k))).find? (fun p => p.1 == f)
        = (ks.find? (fun k => k == f)).map (fun k => (k, c k))
  | [] => rfl
  | k :: ks => by
    rcases h : (k == f) with _ | _ <;>
      simp [List.find?_cons, h, find?_map_keys c f ks]

/-- `find?` for equality with a present key returns that key. -/
theorem find?_beq_of_mem (f : String) :
    ∀ ks : List String, f ∈ ks → ks.find? (fun k => k == f) = some f
  | k :: ks, hmem => by
    rcases h : (k == f) with _ | _
    · have hne : f ≠ k := fun heq => by simp [heq] at h
      have : f ∈ ks := by
        rcases List.mem_cons.mp hmem with h1 | h1
        · exact absurd h1 hne
        · exact h1
      simp [List.find?_cons, h, find?_beq_of_mem f ks this]
    · have : k = f := by simpa using h
      simp [List.find?_cons, h, this]

/-- The count the spread reads off a grouped result is the number of rows
carrying that key. -/
theorem resultCount_groupCount {α : Type} (key : α → String) (rows : List α) (f : String) :
    resultCount (groupCount key rows) f = (rows.filter (fun r => key r == f)).length := by
  unfold resultCount lookupCount groupCount
  rw [find?_map_keys (fun k => (rows.filter (fun r => key r == k)).length) f
    (((rows.map key).dedup).insertionSort keyLE)]
  by_cases hf : f ∈ ((rows.map key).dedup).insertionSort keyLE
  · rw [find?_beq_of_mem f _ hf]
    rfl
  · have hkeys : ∀ k ∈ ((rows.map key).dedup).insertionSort keyLE, ¬(k == f) = true := by
      intro k hk hbeq
      have hkf : k = f := by simpa using hbeq
      exact hf (hkf ▸ hk)
    rw [List.find?_eq_none.mpr hkeys]
    have hnone : ∀ r ∈ rows, ¬(key r == f) = true := by
      intro r hr hbeq
      apply hf
      rw [List.mem_insertionSort, List.mem_dedup]
      exact List.mem_map.mpr ⟨r, hr, by simpa using hbeq⟩
    rw [List.filter_eq_nil_iff.mpr hnone]
    rfl

/-- C2 (amended): for every month, the census aggregators count exactly the
rows satisfying `(discharge_date >= period_START OR discharge_date IS NULL)
AND admission_date <= period_END` — residency overlapping the month at all,
not residency covering the whole month: the source binds the month start to
the discharge bound and the month end to the admission bound. -/
theorem census_counts_overlapping_rows (pstart pend : Nat) (alfs : List AlfRow)
    (inpatient : List InpRow) (f : String) :
    resultCount (alf_census_on_date pstart pend alfs) f
        = (alfs.filter (fun r =>
            (r.facility_name == f) &&
              ((match r.discharge_date with
                | none => true
                | some d => decide (pstart ≤ d)) && decide (r.admission_date ≤ pend)))).length
      ∧ resultCount (nf_census_on_date pstart pend inpatient) f
        = (inpatient.filter (fun r =>
            (r.facility == f) &&
              ((match r.discharge_date with
                | none => true
                | some d => decide (pstart ≤ d)) && decide (r.admission_date ≤ pend)))).length := by
  constructor
  · rw [alf_census_on_date, resultCount_groupCount, List.filter_filter]
    simp only [activeDuringPeriod]
  · rw [nf_census_on_date, resultCount_groupCount, List.filter_filter]
    simp only [activeDuringPeriod]

/-- C2 as stated is refuted by a resident admitted mid-month with no
discharge: the source's clause counts the row for the month `(10, 40)`
while the claim's condition `(discharge >= period_end OR NULL) AND
admission <= period_start` rejects it. -/
theorem census_claim_cex :
    alf_census_on_date 10 40 [cexAlfRow] = [("F", 1)]
      ∧ activeDuringPeriod 10 40 cexAlfRow.admission_date cexAlfRow.discharge_date = true
      ∧ specActiveDuringPeriod 10 40 cexAlfRow.admission_date cexAlfRow.discharge_date = false := by
  decide

/-! ## Lemmas about the Spread Assembler -/

/-- One merge/fillna step acts row by row. -/
theorem merge_fillna_eq_map (rows : List (String × List (Option Nat)))
    (agg : List (String × Nat)) :
    merge_fillna rows agg = rows.map (fun p => fillnaRow (mergeRow agg p)) := by
  simp [merge_fillna, List.map_map, Function.comp_def]

/-- The whole merge/fillna fold acts row by row. -/
theorem foldl_merge_fillna_eq (aggs : List (List (String × Nat))) :
    ∀ rows : List (String × List (Option Nat)),
      aggs.foldl merge_fillna rows
        = rows.map (fun p => aggs.foldl (fun q a => fillnaRow (mergeRow a q)) p) := by
  induction aggs with
  | nil => intro rows; simp
  | cons a as ih =>
    intro rows
    rw [List.foldl_cons, merge_fillna_eq_map, ih, List.map_map]
    simp [Function.comp_def]

/-- Folding the months over one facility row whose cells are all defined
appends one defined cell per month: the month's count for that facility,
zero-filled when absent. -/
theorem perRow_merge_fillna (aggs : List (List (String × Nat))) :
    ∀ (f : String) (vs : List Nat),
      aggs.foldl (fun q a => fillnaRow (mergeRow a q)) (f, vs.map some)
        = (f, (vs ++ aggs.map (fun a => resultCount a f)).map some) := by
  induction aggs with
  | nil => intro f vs; simp
  | cons a as ih =>
    intro f vs
    rw [List.foldl_cons]
    have hstep : fillnaRow (mergeRow a (f, vs.map some))
        = (f, (vs ++ [resultCount a f]).map some) := by
      simp [fillnaRow, mergeRow, resultCount, List.map_append, List.map_map,
        Function.comp_def]
    rw [hstep, ih f (vs ++ [resultCount a f])]
    simp

/-- The fold never touches the facility key of a row. -/
theorem fst_perRow_merge_fillna (aggs : List (List (String × Nat))) :
    ∀ p : String × List (Option Nat),
      (aggs.foldl (fun q a => fillnaRow (mergeRow a q)) p).1 = p.1 := by
  induction aggs with
  | nil => intro p; rfl
  | cons a as ih =>
    intro p
    rw [List.foldl_cons]
    exact ih (fillnaRow (mergeRow a p))

/-- C3: after the Spread Assembler finishes, every universe facility's row
is present with one defined cell per month — `some` of the month's count —
and a month whose aggregation result lacks the facility shows count 0
(`some 0`, never null): the zero-fill applied after every join leaves no
undefined cell. -/
theorem spread_zero_fill (facilities : List String) (aggs : List (List (String × Nat)))
    (f : String) (h : f ∈ facilities) :
    (f, aggs.map (fun a => some (resultCount a f))) ∈ build_csv_date_spread facilities aggs
      ∧ ∀ a ∈ aggs, hasKey a f = false → resultCount a f = 0 := by
  constructor
  · unfold build_csv_date_spread
    rw [List.mem_insertionSort, foldl_merge_fillna_eq, List.map_map]
    apply List.mem_map.mpr
    refine ⟨f, h, ?_⟩
    have hrow := perRow_merge_fillna aggs f []
    simpa [Function.comp_def, List.map_map] using hrow
  · intro a _ hk
    have hnone : ∀ p ∈ a, ¬(p.1 == f) = true := by
      intro p hp hbeq
      have : a.any (fun p => p.1 == f) = true := List.any_eq_true.mpr ⟨p, hp, hbeq⟩
      rw [hasKey] at hk
      rw [this] at hk
      cases hk
    unfold resultCount lookupCount
    rw [List.find?_eq_none.mpr hnone]
    rfl

/-- Witness for `spread_zero_fill`: the spec's own end-to-end scenario —
universe `{A, B}`, month 1 = `{A: 5}`, month 2 = `{B: 3}` — where `A`'s
row is `[some 5, some 0]`. -/
theorem spread_zero_fill_witness :
    ("A", [some 5, some 0]) ∈ build_csv_date_spread ["A", "B"] [[("A", 5)], [("B", 3)]] := by
  have h := (spread_zero_fill ["A", "B"] [[("A", 5)], [("B", 3)]] "A" (by decide)).1
  simpa using h

/-- C9: a facility appearing in some monthly aggregation result but missing
from the facility universe does not appear as a row of the assembled
spread — the left join keeps only universe rows. -/
theorem spread_drops_unknown_facility (facilities : List String)
    (aggs : List (List (String × Nat))) (f : String) (h : f ∉ facilities) :
    ∀ vs, (f, vs) ∉ build_csv_date_spread facilities aggs := by
  intro vs hmem
  unfold build_csv_date_spread at hmem
  rw [List.mem_insertionSort, foldl_merge_fillna_eq, List.map_map] at hmem
  obtain ⟨g, hg, heq⟩ := List.mem_map.mp hmem
  apply h
  have hfst : f = g := by
    have h1 := congrArg Prod.fst heq
    have h2 := fst_perRow_merge_fillna aggs ((fun f => (f, ([] : List (Option Nat)))) g)
    simp only [Function.comp_def] at h1
    rw [h2] at h1
    exact h1.symm
  rw [hfst]
  exact hg

/-- Witness for `spread_drops_unknown_facility`: facility `B` appears in the
month's aggregation but not in the universe `["A"]`, so no `B` row (with
its would-be cells) is in the spread. -/
theorem spread_drops_unknown_facility_witness :
    ¬ (("B", [some 2]) ∈ build_csv_date_spread ["A"] [[("B", 2)]]) :=
  spread_drops_unknown_facility ["A"] [[("B", 2)]] "B" (by decide) [some 2]

/-! ## Lemmas about the Proximity Matcher -/

/-- Duplicate-dropping only removes rows. -/
theorem mem_of_mem_drop_duplicates_first (l : List JRow) :
    ∀ (seen : List (String × Nat)) (r : JRow), r ∈ drop_duplicates_first l seen → r ∈ l := by
  induction l with
  | nil => intro seen r hr; exact absurd hr (List.not_mem_nil r)
  | cons x xs ih =>
    intro seen r hr
    have hstep : drop_duplicates_first (x :: xs) seen
        = if dupKey x ∈ seen then drop_duplicates_first xs seen
          else x :: drop_duplicates_first xs (dupKey x :: seen) := rfl
    by_cases hx : dupKey x ∈ seen
    · rw [hstep, if_pos hx] at hr
      exact List.mem_cons_of_mem x (ih seen r hr)
    · rw [hstep, if_neg hx] at hr
      rcases List.mem_cons.mp hr with heq | hr
      · rw [heq]
        exact List.mem_cons_self x xs
      · exact List.mem_cons_of_mem x (ih (dupKey x :: seen) r hr)

/-- A kept row's duplicate key was not among the already-seen keys. -/
theorem drop_duplicates_first_not_seen (l : List JRow) :
    ∀ (seen : List (String × Nat)) (r : JRow),
      r ∈ drop_duplicates_first l seen → dupKey r ∉ seen := by
  induction l with
  | nil => intro seen r hr; exact absurd hr (List.not_mem_nil r)
  | cons x xs ih =>
    intro seen r hr
    have hstep : drop_duplicates_first (x :: xs) seen
        = if dupKey x ∈ seen then drop_duplicates_first xs seen
          else x :: drop_duplicates_first xs (dupKey x :: seen) := rfl
    by_cases hx : dupKey x ∈ seen
    · rw [hstep, if_pos hx] at hr
      exact ih seen r hr
    · rw [hstep, if_neg hx] at hr
      rcases List.mem_cons.mp hr with heq | hr
      · rw [heq]
        exact hx
      · intro hseen
        exact ih (dupKey x :: seen) r hr (List.mem_cons_of_mem _ hseen)

/-- On a list sorted by ascending day difference, `keep="first"` keeps, for
every duplicate key, a row whose difference is minimal among all rows of
that key. -/
theorem drop_duplicates_first_min (l : List JRow) :
    l.Pairwise diffLE →
      ∀ (seen : List (String × Nat)) (r : JRow), r ∈ drop_duplicates_first l seen →
        ∀ s ∈ l, dupKey s = dupKey r → diffVal r ≤ diffVal s := by
  induction l with
  | nil => intro _ seen r hr; exact absurd hr (List.not_mem_nil r)
  | cons x xs ih =>
    intro hpw seen r hr s hs hkey
    have hx_le := (List.pairwise_cons.mp hpw).1
    have hpw' := (List.pairwise_cons.mp hpw).2
    have hstep : drop_duplicates_first (x :: xs) seen
        = if dupKey x ∈ seen then drop_duplicates_first xs seen
          else x :: drop_duplicates_first xs (dupKey x :: seen) := rfl
    by_cases hx : dupKey x ∈ seen
    · rw [hstep, if_pos hx] at hr
      rcases List.mem_cons.mp hs with heqs | hs'
      · exfalso
        apply drop_duplicates_first_not_seen xs seen r hr
        rw [← hkey, heqs]
        exact hx
      · exact ih hpw' seen r hr s hs' hkey
    · rw [hstep, if_neg hx] at hr
      rcases List.mem_cons.mp hr with heqr | hr'
      · rcases List.mem_cons.mp hs with heqs | hs'
        · rw [heqr, heqs]
        · rw [heqr]
          exact hx_le s hs'
      · rcases List.mem_cons.mp hs with heqs | hs'
        · exfalso
          have hnot := drop_duplicates_first_not_seen xs (dupKey x :: seen) r hr'
          rw [heqs] at hkey
          exact hnot (hkey ▸ List.mem_cons_self _ _)
        · exact ih hpw' (dupKey x :: seen) r hr' s hs' hkey

/-- The kept rows carry pairwise-distinct duplicate keys. -/
theorem drop_duplicates_first_nodup_keys (l : List JRow) :
    ∀ seen : List (String × Nat), ((drop_duplicates_first l seen).map dupKey).Nodup := by
  induction l with
  | nil => intro seen; exact List.nodup_nil
  | cons x xs ih =>
    intro seen
    have hstep : drop_duplicates_first (x :: xs) seen
        = if dupKey x ∈ seen then drop_duplicates_first xs seen
          else x :: drop_duplicates_first xs (dupKey x :: seen) := rfl
    by_cases hx : dupKey x ∈ seen
    · rw [hstep, if_pos hx]
      exact ih seen
    · rw [hstep, if_neg hx, List.map_cons, List.nodup_cons]
      refine ⟨?_, ih (dupKey x :: seen)⟩
      intro hmem
      obtain ⟨r, hr, hkey⟩ := List.mem_map.mp hmem
      exact drop_duplicates_first_not_seen xs (dupKey x :: seen) r hr
        (hkey ▸ List.mem_cons_self _ _)

/-- C4: a joined (infection, admission) row passes the proximity filter iff
its day difference is defined and at most 7; every row the duplicate drop
keeps passed the filter and carries the smallest difference among the
filtered rows sharing its (member, infection date) pair; and at most one
row per such pair is kept. -/
theorem proximity_match_rule (joined : List JRow) :
    (∀ r, r ∈ hosp_within_one_weeks joined
        ↔ r ∈ joined ∧ ∃ d, days_between_hosp_and_inf r = some d ∧ d ≤ 7)
      ∧ (∀ r ∈ keptAdmissions joined,
          r ∈ hosp_within_one_weeks joined
            ∧ ∀ s ∈ hosp_within_one_weeks joined,
                dupKey s = dupKey r → diffVal r ≤ diffVal s)
      ∧ ((keptAdmissions joined).map dupKey).Nodup := by
  refine ⟨?_, ?_, drop_duplicates_first_nodup_keys _ []⟩
  · intro r
    simp only [hosp_within_one_weeks, List.mem_filter, withinOneWeek]
    constructor
    · rintro ⟨hr, hw⟩
      refine ⟨hr, ?_⟩
      rcases hd : days_between_hosp_and_inf r with _ | d
      · rw [hd] at hw
        cases hw
      · rw [hd] at hw
        exact ⟨d, rfl, by simpa using hw⟩
    · rintro ⟨hr, d, hd, hle⟩
      refine ⟨hr, ?_⟩
      rw [hd]
      simpa using hle
  · intro r hr
    simp only [keptAdmissions] at hr
    have hsort : ((hosp_within_one_weeks joined).insertionSort diffLE).Pairwise diffLE :=
      List.sorted_insertionSort diffLE _
    have hmem : r ∈ (hosp_within_one_weeks joined).insertionSort diffLE :=
      mem_of_mem_drop_duplicates_first _ _ r hr
    refine ⟨(List.mem_insertionSort diffLE).mp hmem, fun s hs hkey => ?_⟩
    exact drop_duplicates_first_min _ hsort [] r hr s
      ((List.mem_insertionSort diffLE).mpr hs) hkey

/-- Witness for `proximity_match_rule` on the claim's own scenario: an
infection on day 100 with candidate discharges on days 97 (difference 3)
and 90 (difference 10): the difference-3 row passes the filter and is the
kept row for the pair. -/
theorem proximity_match_rule_witness :
    exJ1 ∈ hosp_within_one_weeks exJoined ∧ diffVal exJ1 ≤ diffVal exJ1
      ∧ keptAdmissions exJoined = [exJ1] ∧ exJ2 ∉ hosp_within_one_weeks exJoined :=
  ⟨((proximity_match_rule exJoined).1 exJ1).mpr ⟨by decide, 3, by decide, by decide⟩,
    ((proximity_match_rule exJoined).2.1 exJ1 (by decide)).2 exJ1 (by decide) (by decide),
    by decide, by decide⟩

/-- C5: when every row of the infection-to-admission join has a null day
difference (in particular when the join matches zero admissions, so the
difference column holds no timedelta and the `.dt` access fails),
`infections_by_hosp` does not propagate the error: it returns exactly one
placeholder row `{facility: "None", infections: "None"}` and writes no
diagnostic file. -/
theorem infections_no_data_sentinel (pstart pend : Nat) (infections : List InfRow)
    (inpatient : List InpRow)
    (h : (leftJoinInfAdm (infections.filter (hospAcquiredInPeriod pstart pend))
        inpatient).all (fun r => (days_between_hosp_and_inf r).isNone) = true) :
    infections_by_hosp pstart pend infections inpatient = ([("None", "None")], none) := by
  simp only [infections_by_hosp]
  rw [if_pos h]

/-- Witness for `infections_no_data_sentinel`: one hospital-acquired
infection and an empty inpatient table. -/
theorem infections_no_data_sentinel_witness :
    infections_by_hosp 1 365 exNoAdmInfections [] = ([("None", "None")], none) :=
  infections_no_data_sentinel 1 365 exNoAdmInfections [] (by decide)

/-- C8 (amended): whenever `infections_by_hosp` writes the diagnostic file,
the file holds exactly the selected infections whose SUBJECT has no
retained admission — the source filters on `member_id` membership, so an
unmatched infection record of a subject with another, matched infection is
not written out. -/
theorem diagnostic_file_by_subject (pstart pend : Nat) (infections : List InfRow)
    (inpatient : List InpRow) (l : List InfRow)
    (h : (infections_by_hosp pstart pend infections inpatient).2 = some l) :
    ∀ i, i ∈ l
      ↔ i ∈ infections.filter (hospAcquiredInPeriod pstart pend)
        ∧ ∀ r ∈ keptAdmissions (leftJoinInfAdm
            (infections.filter (hospAcquiredInPeriod pstart pend)) inpatient),
            r.member_id ≠ i.member_id := by
  simp only [infections_by_hosp] at h
  by_cases hc : (leftJoinInfAdm (infections.filter (hospAcquiredInPeriod pstart pend))
      inpatient).all (fun r => (days_between_hosp_and_inf r).isNone) = true
  · rw [if_pos hc] at h
    cases h
  · rw [if_neg hc] at h
    have hl := (Option.some_inj.mp h).symm
    intro i
    rw [hl, List.mem_filter]
    constructor
    · rintro ⟨hi, hb⟩
      refine ⟨hi, fun r hr heq => ?_⟩
      rw [Bool.not_eq_true'] at hb
      exact (List.any_eq_false.mp hb r hr) (by simpa using heq)
    · rintro ⟨hi, hall⟩
      refine ⟨hi, ?_⟩
      rw [Bool.not_eq_true']
      apply List.any_eq_false.mpr
      intro r hr
      simpa using hall r hr

/-- C8 as stated is refuted: member `A`'s day-200 infection has no
admission within the 7-day window (its only joined candidate is 101 days
away), yet the diagnostic rows are empty, because `A` also has a matched
infection (day 100) and the filter tests the member id, not the record. -/
theorem diagnostic_file_claim_cex :
    (infections_by_hosp 1 365 cexInfections cexInpatient).2 = some []
      ∧ (⟨"A", 200, "Hospital"⟩ : InfRow) ∈ cexInfections.filter (hospAcquiredInPeriod 1 365)
      ∧ (leftJoinInfAdm (cexInfections.filter (hospAcquiredInPeriod 1 365))
          cexInpatient).filter
            (fun r => withinOneWeek r && r.date_time_occurred == 200) = [] := by
  decide

/-- Witness for `diagnostic_file_by_subject`: on the same input, the
characterization shows the day-200 infection of member `A` is kept out of
the diagnostic file because some retained admission shares its member id. -/
theorem diagnostic_file_by_subject_witness :
    ¬ ((⟨"A", 200, "Hospital"⟩ : InfRow) ∈ cexInfections.filter (hospAcquiredInPeriod 1 365)
        ∧ ∀ r ∈ keptAdmissions (leftJoinInfAdm
            (cexInfections.filter (hospAcquiredInPeriod 1 365)) cexInpatient),
            r.member_id ≠ (⟨"A", 200, "Hospital"⟩ : InfRow).member_id) := by
  intro hr
  have h := (diagnostic_file_by_subject 1 365 cexInfections cexInpatient [] (by decide)
    ⟨"A", 200, "Hospital"⟩).mpr hr
  exact absurd h (List.not_mem_nil _)

/-- C6: the pressure-ulcer aggregator does not put the month into its
column name: the source's `params = [facility_type] + list(params)`
rebinding makes `params[0][:7]` the facility type, so for type `SNF` and
the January 2024 month the column is `SNF_pulcers-SNF`, not the claimed
`SNF_pulcers-2024-01-01` (the census and hospital-admission templates, by
contrast, do embed the month). -/
theorem pressure_column_name_bug :
    pressure_ulcers_col "SNF" ("2024-01-01", "2024-01-31") = "SNF_pulcers-SNF"
      ∧ pressure_ulcers_col "SNF" ("2024-01-01", "2024-01-31") ≠ "SNF_pulcers-2024-01-01"
      ∧ alf_census_col ("2024-01-01", "2024-01-31") = "census-2024-01"
      ∧ alf_to_hosp_col ("2024-01-01", "2024-01-31") = "hosp_admits-2024-01-01" := by
  decide

/-- C7: a wound with null `living_detail` in the month is silently dropped
by the monthly `groupby` (pandas excludes null group keys), so the monthly
aggregation is empty and the `Unknown` row of the assembled spread shows 0,
not the wound count — the source's key-side `fillna("Unknown")` runs only
after the groupby has already discarded those rows. -/
theorem pressure_unknown_drop_bug :
    cexWounds.filter (woundInPeriod "SNF" 1 31) = cexWounds
      ∧ pressure_ulcers_at_facility "SNF" 1 31 cexWounds = []
      ∧ wound_universe "SNF" cexWounds = ["Unknown"]
      ∧ build_pressure_wound_csv "SNF" [(1, 31)] cexWounds = [("Unknown", [some 0])] := by
  decide

/-! ## Lemmas about the infections spread column names -/

/-- The suffixed column pairs never contain the bare name. -/
theorem colPattern_no_infections : ∀ m, "infections" ∉ colPattern m
  | 0 => by simp [colPattern]
  | m + 1 => by
    simp only [colPattern, List.mem_append]
    rintro (h | h)
    · exact colPattern_no_infections m h
    · revert h
      decide

/-- A frame without an `infections` column keeps all its column names when
merged with the one-column `infections` frame, which lands unsuffixed. -/
theorem mergeCols_no_overlap (L : List String) (h : "infections" ∉ L) :
    mergeCols L ["infections"] = L ++ ["infections"] := by
  unfold mergeCols
  have hmapL : L.map (fun c => if c ∈ ["infections"] then c ++ "_x" else c) = L := by
    conv_rhs => rw [← List.map_id L]
    apply List.map_congr_left
    intro a ha
    have hne : a ≠ "infections" := fun heq => h (heq ▸ ha)
    simp [hne]
  rw [hmapL]
  simp [h]

/-- When the left frame already carries an `infections` column (besides
suffixed ones), the merge renames the colliding pair to `infections_x` and
`infections_y`. -/
theorem mergeCols_overlap (L : List String) (h : "infections" ∉ L) :
    mergeCols (L ++ ["infections"]) ["infections"] = L ++ ["infections_x", "infections_y"] := by
  unfold mergeCols
  rw [List.map_append]
  have hmapL : L.map (fun c => if c ∈ ["infections"] then c ++ "_x" else c) = L := by
    conv_rhs => rw [← List.map_id L]
    apply List.map_congr_left
    intro a ha
    have hne : a ≠ "infections" := fun heq => h (heq ▸ ha)
    simp [hne]
  rw [hmapL]
  simp [List.append_assoc]

/-- After an even number of monthly merges the infections spread holds the
suffixed pairs only; one more merge appends a bare `infections` column. -/
theorem infections_spread_cols_shape :
    ∀ m, infections_spread_cols (2 * m) = colPattern m
      ∧ infections_spread_cols (2 * m + 1) = colPattern m ++ ["infections"]
  | 0 => by
    constructor
    · rfl
    · decide
  | m + 1 => by
    have ih := infections_spread_cols_shape m
    have h2 : 2 * (m + 1) = (2 * m + 1) + 1 := by omega
    have heven : infections_spread_cols (2 * (m + 1)) = colPattern (m + 1) := by
      rw [h2]
      show mergeCols (infections_spread_cols (2 * m + 1)) ["infections"] = colPattern (m + 1)
      rw [ih.2, mergeCols_overlap (colPattern m) (colPattern_no_infections m)]
      rfl
    refine ⟨heven, ?_⟩
    show mergeCols (infections_spread_cols (2 * (m + 1))) ["infections"]
        = colPattern (m + 1) ++ ["infections"]
    rw [heven, mergeCols_no_overlap (colPattern (m + 1)) (colPattern_no_infections (m + 1))]

/-- C10 (amended): the assembled infections spread holds a column literally
named `infections` iff the number of merged months is odd — every second
merge collides and renames the pair to `infections_x`/`infections_y`, and
each odd-numbered month's column then lands unsuffixed.  The claim holds
for even month counts (such as 2) and fails for odd ones. -/
theorem infections_spread_cols_parity (k : Nat) :
    ("infections" ∈ infections_spread_cols k) ↔ k % 2 = 1 := by
  rcases Nat.even_or_odd k with ⟨m, hm⟩ | ⟨m, hm⟩
  · have hk : k = 2 * m := by omega
    rw [hk, (infections_spread_cols_shape m).1]
    constructor
    · intro h
      exact absurd h (colPattern_no_infections m)
    · intro h
      omega
  · have hk : k = 2 * m + 1 := by omega
    rw [hk, (infections_spread_cols_shape m).2]
    constructor
    · intro _
      omega
    · intro _
      simp [List.mem_append]

/-- C10 as stated is refuted by the default quarterly run: after three
monthly merges the spread still holds a column literally named
`infections` (the third month's column collided with nothing). -/
theorem infections_spread_cols_cex :
    infections_spread_cols 2 = ["infections_x", "infections_y"]
      ∧ infections_spread_cols 3 = ["infections_x", "infections_y", "infections"]
      ∧ "infections" ∈ infections_spread_cols 3 := by
  decide

/-- Witness for `infections_spread_cols_parity` at five months. -/
theorem infections_spread_cols_parity_witness :
    "infections" ∈ infections_spread_cols 5 :=
  (infections_spread_cols_parity 5).mpr (by decide)
